import Mathlib

/-!
Verification of the spider-butter static file server.

This development shallowly embeds the request-handling pipeline of the
server (src/http.rs, src/fileserver.rs, src/mappings.rs, src/tcp_util.rs,
src/cert.rs) into Lean and settles the claims of the specification
against it.  Rust strings are modelled as Lean `String` (with the
character-list representation used for the primitive operations), Rust
`HashMap` as an association list with insert-replace semantics, fallible
operations as `Except String`, and the effects of a connection
computation (responses written, bodies written, route lookups) as an
explicit transcript of events.
-/

namespace SpiderButter

deriving instance DecidableEq for Except

/-! ## Rust string primitives

Models of the str methods used by the server: split, split_terminator,
splitn(2, _), split_whitespace, trim and contains.  All definitions are
structurally recursive so that they evaluate by kernel reduction. -/

/-- Model of Rust char is_whitespace (the Unicode White_Space property). -/
def rustIsWhitespace (c : Char) : Bool :=
  c = ' ' || c = '\t' || c = '\n' || c = '\x0b' || c = '\x0c' || c = '\r' ||
  c = '\u0085' || c = '\u00A0' || c = '\u1680' ||
  ('\u2000' ≤ c && c ≤ '\u200A') ||
  c = '\u2028' || c = '\u2029' || c = '\u202F' || c = '\u205F' || c = '\u3000'

/-- Test whether the first list occurs as a prefix of the second (Rust
pattern matching at the head of a string). -/
def headMatches : List Char → List Char → Bool
  | [], _ => true
  | _ :: _, [] => false
  | a :: as, b :: bs => a = b && headMatches as bs

/-- Index of the first occurrence of `sub` in `l` (leftmost match), as used
by Rust string pattern search; `none` when `sub` does not occur. -/
def findSubIdx (sub : List Char) : List Char → Option Nat
  | [] => if sub.isEmpty then some 0 else none
  | c :: rest =>
    if headMatches sub (c :: rest) then some 0
    else (findSubIdx sub rest).map (· + 1)

/-- Fuel-driven worker for `rustSplit`.  Each recursive step consumes at
least one character of the remaining input (the separator is non-empty in
that branch), so fuel `l.length + 1` always suffices; the fuel only makes
the recursion structural. -/
def splitFuel (sep : List Char) : Nat → List Char → List (List Char)
  | 0, l => [l]
  | fuel + 1, l =>
    if sep.isEmpty then [l]
    else
      match findSubIdx sep l with
      | none => [l]
      | some i => l.take i :: splitFuel sep fuel (l.drop (i + sep.length))

/-- Model of Rust str split for a non-empty string separator: the list of
pieces between non-overlapping leftmost occurrences of `sep`.  Always
yields at least one piece. -/
def rustSplit (sep l : List Char) : List (List Char) :=
  splitFuel sep (l.length + 1) l

/-- Model of Rust str split_terminator: like split, but a trailing empty
piece (produced when the input ends with the separator, or is empty) is
removed. -/
def rustSplitTerminator (sep l : List Char) : List (List Char) :=
  let ps := rustSplit sep l
  if ps.getLast? = some [] then ps.dropLast else ps

/-- Model of Rust str splitn(2, sep): everything before the first
occurrence of `sep`, and the unsplit remainder after it.  Always yields at
least one piece. -/
def splitN2 (sep l : List Char) : List (List Char) :=
  match findSubIdx sep l with
  | none => [l]
  | some i => [l.take i, l.drop (i + sep.length)]

/-- Model of Rust str trim: remove leading and trailing whitespace. -/
def trimChars (l : List Char) : List Char :=
  ((l.dropWhile rustIsWhitespace).reverse.dropWhile rustIsWhitespace).reverse

/-- Accumulator-passing worker for `splitWhitespace`; `cur` holds the
characters of the current word in reverse. -/
def splitWhitespaceAux : List Char → List Char → List (List Char)
  | cur, [] => if cur.isEmpty then [] else [cur.reverse]
  | cur, c :: rest =>
    if rustIsWhitespace c then
      if cur.isEmpty then splitWhitespaceAux [] rest
      else cur.reverse :: splitWhitespaceAux [] rest
    else splitWhitespaceAux (c :: cur) rest

/-- Model of Rust str split_whitespace: the whitespace-separated words of
the input, with no empty words. -/
def splitWhitespace (l : List Char) : List (List Char) :=
  splitWhitespaceAux [] l

/-- Model of Rust str contains for a string pattern: `sub` occurs as a
contiguous substring of the second argument. -/
def containsSub (sub : List Char) : List Char → Bool
  | [] => sub.isEmpty
  | c :: rest => headMatches sub (c :: rest) || containsSub sub rest

/-! ## HashMap model

Rust HashMap of string keys and values, modelled as an association list
whose keys are unique; insert replaces the value of an existing key in
place and appends a fresh key, and lookup is exact string-equality
matching.  The *iteration order* of a real HashMap is not a function of
its contents (each map instance draws a fresh random hash seed), so any
place where the source iterates a map is modelled as operating on an
arbitrary permutation of this list. -/

/-- Model of HashMap insert: replace the value of an existing key,
otherwise append the new binding. -/
def mapInsert (m : List (String × String)) (k v : String) : List (String × String) :=
  if m.any (fun p => p.1 = k) then
    m.map (fun p => if p.1 = k then (k, v) else p)
  else
    m ++ [(k, v)]

/-- Model of HashMap get: exact-match lookup. -/
def mapGet (m : List (String × String)) (k : String) : Option String :=
  (m.find? (fun p => p.1 = k)).map (·.2)

/-! ## src/http.rs: request parsing and responses -/

/-- A parsed HTTP request (http.rs, struct Request). -/
structure Request where
  uri : String
  fields : List (String × String)
deriving DecidableEq

/-- The header-field fold inside Request parse (http.rs lines 41-50): each
remaining line is split at the first colon with both halves trimmed; a
line with no colon is skipped; otherwise the binding is inserted.  Returns
`none` if the key unwrap would panic (it cannot: `splitN2` is never
empty). -/
def parseFields : List (List Char) → List (String × String) → Option (List (String × String))
  | [], acc => some acc
  | line :: rest, acc =>
    let pieces := (splitN2 [':'] line).map trimChars
    match pieces.head? with
    | none => none
    | some key =>
      match pieces.get? 1 with
      | none => parseFields rest acc
      | some v => parseFields rest (mapInsert acc ⟨key⟩ ⟨v⟩)

/-- Model of Request parse (http.rs lines 21-56).  The outer `Option`
models the possibility of a panic at one of the unwrap calls (`none` =
panic); the theorem for claim C9 below proves this never happens.  The
inner `Except` is the source's `Result`. -/
def Request.parse (data : String) : Option (Except String Request) :=
  match (rustSplit "\r\n\r\n".data data.data).head? with
  | none => none
  | some headerEnd =>
    let lines := rustSplitTerminator "\r\n".data headerEnd
    let reqline := lines.head?.getD []
    let els := splitWhitespace reqline
    if ((els.get? 0).getD []) ≠ "GET".data then
      some (.error "Non-GET requests not supported")
    else
      let requri := (els.get? 1).getD []
      let version := (els.get? 2).getD []
      if version ≠ "HTTP/1.0".data ∧ version ≠ "HTTP/1.1".data then
        some (.error "Invalid HTTP version")
      else
        match parseFields lines.tail [] with
        | none => none
        | some fields => some (.ok ⟨⟨requri⟩, fields⟩)

/-- Model of Request get (http.rs lines 62-64): exact-match,
case-sensitive field lookup. -/
def Request.get (r : Request) (key : String) : Option String :=
  mapGet r.fields key

/-- An HTTP response under construction (http.rs, struct Response). -/
structure Response where
  status_line : String
  fields : List (String × String)
deriving DecidableEq

/-- Model of Response new. -/
def Response.new (status : String) : Response := ⟨status, []⟩

/-- Model of Response set (a HashMap insert). -/
def Response.set (r : Response) (k v : String) : Response :=
  { r with fields := mapInsert r.fields k v }

/-- Model of Response header_string (http.rs lines 79-91) *given* the
order in which the field HashMap happens to be iterated: the status line
and then each `key: value` pair, each followed by CRLF, with a final blank
line.  The real iteration order is an arbitrary permutation of the
response's fields, determined by the map instance's random hash seed, not
by its contents. -/
def headerStringWith (status : String) (fieldsInOrder : List (String × String)) : String :=
  ((status :: fieldsInOrder.map fun p => p.1 ++ ": " ++ p.2).foldl
    (fun acc s => acc ++ s ++ "\r\n") "") ++ "\r\n"

/-! ## src/mappings.rs: routing table and assets

Body bytes are modelled as `List Nat`.  The filesystem and the flate2
compressors are external collaborators; they enter the model as an
explicit environment `Env` of fallible functions, so that an asset read
or compression failure is a concrete, analysable input. -/

/-- The compression method chosen for a response body (mappings.rs,
enum Encoding). -/
inductive Encoding
  | uncompressed
  | gzip
  | deflate
deriving DecidableEq

/-- A routing-table entry (mappings.rs, struct Mapping): target path and
optional declared content type. -/
structure Mapping where
  path : String
  content_type : Option String
deriving DecidableEq

/-- The data behind a mapped asset.  A `preprocessed` asset (mappings.rs,
struct PreprocessedAsset) holds the three precomputed encodings; an
`unprocessed` asset (struct UnprocessedAsset) holds only the file path and
is re-read and re-compressed per request. -/
inductive AssetSource
  | preprocessed (uncompressed_data deflated_data gzipped_data : List Nat)
  | unprocessed (file_path : String)
deriving DecidableEq

/-- External collaborators of one connection: the filesystem read used by
UnprocessedAsset, the flate2 fast compressors it applies, and the
outcomes of the stream writes issued through write_async (indexed by the
order in which the connection issues them). -/
structure Env where
  fsRead : String → Except String (List Nat)
  deflateFast : List Nat → Except String (List Nat)
  gzipFast : List Nat → Except String (List Nat)
  write : Nat → Except String Unit

/-- Model of MappedAsset get_encoding (mappings.rs lines 257-292).  A
preprocessed asset returns the stored bytes for the requested encoding
and cannot fail; an unprocessed asset first reads the file, then
compresses on demand, and both steps can fail. -/
def getEncodingOf (env : Env) (asset : AssetSource) (encoding : Encoding) :
    Except String (List Nat) :=
  match asset with
  | .preprocessed u d g =>
    match encoding with
    | .uncompressed => .ok u
    | .deflate => .ok d
    | .gzip => .ok g
  | .unprocessed path => do
    let uncompressed_data ← env.fsRead path
    match encoding with
    | .uncompressed => .ok uncompressed_data
    | .deflate => env.deflateFast uncompressed_data
    | .gzip => env.gzipFast uncompressed_data

/-- The routing table (mappings.rs, struct Mappings): route map, cache of
preprocessed assets keyed by target path, and the caching flag. -/
structure Mappings where
  mappings : List (String × Mapping)
  file_cache : List (String × (List Nat × List Nat × List Nat))
  caching_enabled : Bool

/-- Model of Mappings get_route (mappings.rs lines 219-221). -/
def Mappings.get_route (m : Mappings) (key : String) : Option Mapping :=
  (m.mappings.find? (fun p => p.1 = key)).map (·.2)

/-- Model of Mappings get_asset (mappings.rs lines 223-232): with caching,
a cache lookup that may miss; without caching, always an unprocessed
asset for the route's path. -/
def Mappings.get_asset (m : Mappings) (route : String) : Option AssetSource :=
  if m.caching_enabled then
    (m.file_cache.find? (fun p => p.1 = route)).map
      (fun p => .preprocessed p.2.1 p.2.2.1 p.2.2.2)
  else
    some (.unprocessed route)

/-! ## src/fileserver.rs: the connection state machine (post-read)

`processRequest` models start_stream_process from the point where the
request bytes have been read (fileserver.rs lines 198-258) together with
send_data_async (lines 261-286).  The input is `none` when the buffer is
not valid UTF-8, otherwise the decoded text.  The output records a
transcript of observable events and the connection's result; the outer
`Option` is `none` on a (never-occurring) parser panic. -/

/-- Worker/scheduler constants (fileserver.rs lines 23-25). -/
def MAX_CONCURRENT_CONNECTIONS_PER_THREAD : Nat := 128

/-- Capacity of each worker's inbound channel (fileserver.rs line 24). -/
def MAX_PENDING_CONNECTIONS_PER_THREAD : Nat := 128

/-- The trimmed comma-separated tokens of an Accept-Encoding header value
(absent header: no tokens), exactly as start_stream_process tokenizes it
(fileserver.rs lines 222-224; the absent case is its final
unwrap_or(Vec::new())). -/
def acceptTokens : Option String → List (List Char)
  | none => []
  | some s => (rustSplitTerminator [','] s.data).map trimChars

/-- The token filter of the Accept-Encoding parse (fileserver.rs lines
225-229): supported tokens map to their encoding, all others are
dropped. -/
def encOfTok (enc : List Char) : Option Encoding :=
  if enc = "deflate".data then some Encoding.deflate
  else if enc = "gzip".data then some Encoding.gzip
  else none

/-- Model of the Accept-Encoding parse in start_stream_process
(fileserver.rs lines 222-231): split on commas, trim, keep only the
supported tokens. -/
def parseEncodings (header : Option String) : List Encoding :=
  (acceptTokens header).filterMap encOfTok

/-- The sort key of the encoding preference sort (fileserver.rs lines
233-237). -/
def encodingRank : Encoding → Nat
  | .gzip => 1
  | .deflate => 2
  | _ => 10

/-- Insert into a rank-sorted list of encodings. -/
def insertByRank (e : Encoding) : List Encoding → List Encoding
  | [] => [e]
  | x :: xs =>
    if encodingRank e ≤ encodingRank x then e :: x :: xs
    else x :: insertByRank e xs

/-- Model of sort_unstable_by_key on the parsed encodings.  The rank key
is injective on the values that can occur, so the unstable sort's result
is determined and an insertion sort computes it. -/
def sortEncodings : List Encoding → List Encoding
  | [] => []
  | x :: xs => insertByRank x (sortEncodings xs)

/-- The encoding the server chooses for a request: lowest-rank supported
encoding offered, defaulting to identity (fileserver.rs lines 222-247). -/
def chosenEncoding (header : Option String) : Encoding :=
  ((sortEncodings (parseEncodings header)).head?).getD Encoding.uncompressed

/-- One observable action of a connection computation: writing a response
header (recorded structurally, before serialization), writing body bytes,
or consulting the routing table. -/
inductive Event
  | wroteResponse (r : Response)
  | wroteBody (b : List Nat)
  | routeLookup (uri : String)
deriving DecidableEq

/-- The URI test guarding zombie-mode redirection (fileserver.rs line
212): the URI contains the ACME challenge prefix as a substring. -/
def isAcmeChallengeUri (uri : String) : Bool :=
  containsSub "/.well-known/acme-challenge".data uri.data

/-- Model of send_data_async (fileserver.rs lines 261-286): obtain the
body in the chosen encoding (an error here aborts the connection with
*no* response written), build the 200 response with its optional
Content-Encoding and Content-Type fields, then write the header bytes and
the body bytes; either write may fail. -/
def sendData (env : Env) (asset : AssetSource) (encoding : Encoding)
    (content_type : Option String) : List Event × Except String Unit :=
  match getEncodingOf env asset encoding with
  | .error e => ([], .error e)
  | .ok body =>
    let res := Response.new "HTTP/1.1 200 OK"
    let res :=
      match encoding with
      | .uncompressed => res
      | .gzip => res.set "Content-Encoding" "gzip"
      | .deflate => res.set "Content-Encoding" "deflate"
    let res :=
      match content_type with
      | some ct => res.set "Content-Type" ct
      | none => res
    match env.write 0 with
    | .error e => ([.wroteResponse res], .error e)
    | .ok _ =>
      match env.write 1 with
      | .error e => ([.wroteResponse res, .wroteBody body], .error e)
      | .ok _ => ([.wroteResponse res, .wroteBody body], .ok ())

/-- Model of start_stream_process after the read loop (fileserver.rs
lines 198-258).  `input` is `none` when the request buffer is not valid
UTF-8.  Order of stages, exactly as in the source: parse (failure sends
400 and terminates with the error), zombie-mode redirect (terminates
successfully, write result discarded), encoding negotiation, route and
asset lookup (miss sends 404), and body streaming via send_data_async. -/
def processRequest (env : Env) (m : Mappings) (zombie_mode : Bool)
    (input : Option String) : Option (List Event × Except String Unit) :=
  match input with
  | none =>
    some ([.wroteResponse (Response.new "HTTP/1.1 400 Bad Request")],
      .error "invalid utf-8 sequence")
  | some data =>
    match Request.parse data with
    | none => none
    | some (.error e) =>
      some ([.wroteResponse (Response.new "HTTP/1.1 400 Bad Request")], .error e)
    | some (.ok request) =>
      if zombie_mode && !(isAcmeChallengeUri request.uri) then
        let new_location :=
          "https://" ++ ((request.get "Host").getD "") ++ request.uri
        let res := (Response.new "HTTP/1.1 301 Moved Permanently").set
          "Location" new_location
        some ([.wroteResponse res], .ok ())
      else
        let encoding := chosenEncoding (request.get "Accept-Encoding")
        let asset_and_content_type :=
          (m.get_route request.uri).bind fun r =>
            (m.get_asset r.path).map fun a => (a, r.content_type)
        match asset_and_content_type with
        | some (asset, content_type) =>
          let out := sendData env asset encoding content_type
          some (.routeLookup request.uri :: out.1, out.2)
        | none =>
          some ([.routeLookup request.uri,
                 .wroteResponse (Response.new "HTTP/1.1 404 File not found")],
            env.write 0)

/-- Model of the pending-assignment drain at the top of the worker's
processing loop (fileserver.rs lines 144-148): if the owned count is
below the ceiling, *every* currently pending assignment is taken; the
ceiling is not consulted again during the drain. -/
def drainPending (owned pending : List Bool) : List Bool :=
  if owned.length < MAX_CONCURRENT_CONNECTIONS_PER_THREAD then
    owned ++ pending
  else
    owned

/-- One pass of the worker's processing loop (fileserver.rs lines
143-160) at the level of connection counts: drain pending assignments,
resume every owned computation, and retain only those still live.
Connections are abstracted to their post-resume liveness. -/
def workerPass (owned pending : List Bool) : List Bool :=
  (drainPending owned pending).filter id

/-! ## src/tcp_util.rs: the write-all resumable computation -/

/-- Outcome of one non-blocking write call, as seen by write_async. -/
inductive WriteOutcome
  | wouldBlock
  | interrupted
  | fatal (e : String)
  | wrote (n : Nat)
deriving DecidableEq

/-- Observable steps of the write-all computation: a write attempt at a
given cursor, or a yield back to the scheduler. -/
inductive WriteEvent
  | attempt (cursor : Nat)
  | yielded
deriving DecidableEq

/-- Trace semantics of write_async (tcp_util.rs lines 79-103).  `outs`
supplies the outcome of each successive stream write; the result is the
sequence of write attempts and yields, with the computation's final value
(`none` while the outcome list is exhausted before completion).  On
would-block and interrupted outcomes the computation yields and retries;
on a short write it advances the cursor and immediately continues; on a
fatal error it terminates with that error; once the cursor reaches the
buffer length it terminates successfully. -/
def writeAsyncTrace (bytesLen : Nat) : List WriteOutcome → Nat →
    List WriteEvent × Option (Except String Unit)
  | [], _ => ([], none)
  | o :: rest, cursor =>
    match o with
    | .wouldBlock =>
      let t := writeAsyncTrace bytesLen rest cursor
      (.attempt cursor :: .yielded :: t.1, t.2)
    | .interrupted =>
      let t := writeAsyncTrace bytesLen rest cursor
      (.attempt cursor :: .yielded :: t.1, t.2)
    | .fatal e => ([.attempt cursor], some (.error e))
    | .wrote n =>
      if cursor + n ≥ bytesLen then ([.attempt cursor], some (.ok ()))
      else
        let t := writeAsyncTrace bytesLen rest (cursor + n)
        (.attempt cursor :: t.1, t.2)

/-! ## src/cert.rs: certificate loading and renewal -/

/-- The renewal threshold (cert.rs line 27). -/
def RENEWAL_PERIOD_DAYS : Int := 7

/-- A loaded or issued certificate bundle, abstracted to an identity and
its remaining validity. -/
structure CertBundle where
  id : Nat
  days_till_expiry : Int
deriving DecidableEq

/-- External collaborators of the certificate-acquisition path: the
composite of the three file reads, the PEM parse and the expiry
computation (cert.rs lines 142-148); and the composite of the fresh ACME
issuance, the on-disk persistence and the final conversion (cert.rs lines
122-136, request_new_certificate). -/
structure CertEnv where
  readParse : Except String CertBundle
  requestNew : Except String CertBundle

/-- Model of load_certificate_from (cert.rs lines 141-158): read and
parse the persisted bundle, then reject it as expired when its remaining
validity does not exceed the renewal threshold. -/
def load_certificate_from (env : CertEnv) : Except String CertBundle :=
  match env.readParse with
  | .error e => .error e
  | .ok cert =>
    if cert.days_till_expiry ≤ RENEWAL_PERIOD_DAYS then
      .error "Certificate expired"
    else
      .ok cert

/-- Model of acquire_certificate (cert.rs lines 113-137): if the persisted
bundle loads, return it as-is; otherwise run the fresh ACME issuance.
The boolean records whether the ACME service was contacted. -/
def acquire_certificate (env : CertEnv) : Except String CertBundle × Bool :=
  match load_certificate_from env with
  | .ok cert => (.ok cert, false)
  | .error _ => (env.requestNew, true)

/-! ## Derived observations used by the claims -/

/-- The first line of the request buffer, as Request parse isolates it:
the header block before the first blank line, split at CRLF, first
piece (empty for an empty buffer). -/
def requestLine (data : String) : List Char :=
  ((rustSplitTerminator "\r\n".data
    (((rustSplit "\r\n\r\n".data data.data).head?).getD [])).head?).getD []

/-- The method token of the request line (empty when missing). -/
def methodToken (data : String) : List Char :=
  (((splitWhitespace (requestLine data)).get? 0)).getD []

/-- The version token of the request line (empty when missing). -/
def versionToken (data : String) : List Char :=
  (((splitWhitespace (requestLine data)).get? 2)).getD []

/-- Whether a transcript contains a response with status 500 Internal
Server Error. -/
def sends500 (events : List Event) : Bool :=
  events.any fun ev =>
    match ev with
    | .wroteResponse r => r.status_line = "HTTP/1.1 500 Internal Server Error"
    | _ => false

/-! ## Concrete inputs for counterexamples and witnesses -/

/-- Environment whose filesystem read always fails (used for claim C2):
writes succeed, compression is the identity. -/
def c2Env : Env :=
  ⟨fun _ => .error "read failed", fun d => .ok d, fun d => .ok d, fun _ => .ok ()⟩

/-- A non-caching routing table with a single route (used for claim C2). -/
def c2Mappings : Mappings :=
  ⟨[("/a", ⟨"./a", none⟩)], [], false⟩

/-- Environment whose operations all succeed (used for claims C4, C6,
C8, C10). -/
def okEnv : Env :=
  ⟨fun _ => .ok [], fun d => .ok d, fun d => .ok d, fun _ => .ok ()⟩

/-- An empty caching routing table. -/
def noMappings : Mappings := ⟨[], [], true⟩

/-- A caching routing table with one route carrying a declared content
type and a cached asset (used for claim C6). -/
def c6Mappings : Mappings :=
  ⟨[("/x", ⟨"./x", some "text/html"⟩)], [("./x", ([10, 20], [3], [7, 8]))], true⟩

/-- The response the server constructs when serving the cached `/x` asset
gzip-encoded with its declared content type (used for claim C6). -/
def c6Response : Response :=
  ((Response.new "HTTP/1.1 200 OK").set "Content-Encoding" "gzip").set
    "Content-Type" "text/html"

/-- Certificate environment with a persisted bundle inside the renewal
window and a fresh-issuance result (used for claim C5). -/
def c5EnvExpired : CertEnv := ⟨.ok ⟨1, 5⟩, .ok ⟨2, 90⟩⟩

/-- Certificate environment with a persisted bundle having ample
remaining validity (used for claim C5). -/
def c5EnvFresh : CertEnv := ⟨.ok ⟨3, 90⟩, .error "ACME must not be contacted"⟩

/-! ## Helper lemmas -/

/-- The fuel-driven splitter never returns an empty list of pieces. -/
theorem splitFuel_ne_nil (sep : List Char) (fuel : Nat) (l : List Char) :
    splitFuel sep fuel l ≠ [] := by
  cases fuel with
  | zero => simp [splitFuel]
  | succ n =>
    unfold splitFuel
    split
    · simp
    · split <;> simp

/-- Rust str split always yields at least one piece, which is why the
first unwrap in Request parse cannot panic. -/
theorem rustSplit_ne_nil (sep l : List Char) : rustSplit sep l ≠ [] :=
  splitFuel_ne_nil sep (l.length + 1) l

/-- Rust str splitn always yields at least one piece, which is why the
key unwrap in the header-field loop cannot panic. -/
theorem splitN2_ne_nil (sep l : List Char) : splitN2 sep l ≠ [] := by
  unfold splitN2
  split <;> simp

/-- The header-field fold never panics. -/
theorem parseFields_isSome (lines : List (List Char))
    (acc : List (String × String)) : ∃ r, parseFields lines acc = some r := by
  induction lines generalizing acc with
  | nil => exact ⟨acc, rfl⟩
  | cons line rest ih =>
    unfold parseFields splitN2
    cases h : findSubIdx [':'] line with
    | none => simpa [h] using ih acc
    | some i => simpa [h] using ih (mapInsert acc _ _)

/-- C9: Request parse is total: for every input string it returns either
a parsed request or an error value, and none of its internal unwrap calls
can panic, because every split iterator it unwraps yields at least one
element.  In the model a panic is the `none` result; the theorem shows a
panic is impossible for every input. -/
theorem C9_parse_total (data : String) : ∃ r, Request.parse data = some r := by
  unfold Request.parse
  obtain ⟨x, xs, hx⟩ :=
    List.exists_cons_of_ne_nil (rustSplit_ne_nil "\r\n\r\n".data data.data)
  rw [hx]
  simp only [List.head?]
  split
  · exact ⟨_, rfl⟩
  · split
    · exact ⟨_, rfl⟩
    · obtain ⟨fs, hfs⟩ := parseFields_isSome
        (rustSplitTerminator "\r\n".data x).tail []
      rw [hfs]
      exact ⟨_, rfl⟩

/-- A request buffer whose first line has the wrong method or a
missing/unsupported version makes Request parse return an error. -/
theorem parse_error_of_bad (data : String)
    (hbad : methodToken data ≠ "GET".data ∨
      (versionToken data ≠ "HTTP/1.0".data ∧ versionToken data ≠ "HTTP/1.1".data)) :
    ∃ e, Request.parse data = some (Except.error e) := by
  obtain ⟨x, xs, hx⟩ :=
    List.exists_cons_of_ne_nil (rustSplit_ne_nil "\r\n\r\n".data data.data)
  have h1 : requestLine data = ((rustSplitTerminator "\r\n".data x).head?).getD [] := by
    unfold requestLine
    rw [hx]
    rfl
  unfold methodToken versionToken at hbad
  rw [h1] at hbad
  unfold Request.parse
  rw [hx]
  simp only [List.head?]
  split
  · exact ⟨_, rfl⟩
  · split
    · exact ⟨_, rfl⟩
    · rename_i hm hv
      push_neg at hm hv
      rcases hbad with hb | hb
      · exact absurd hm hb
      · rcases hv hb.1 with hveq
        exact absurd hveq hb.2

/-- C8: for every request buffer whose first line is not a well-formed
GET request line (wrong method, missing or unsupported version, or
non-UTF-8 bytes), the server sends a response with status 400 Bad Request
and the connection terminates with an error, without any asset lookup or
asset bytes being served (the transcript contains exactly the 400
response and no route lookup or body write). -/
theorem C8_bad_request_line (env : Env) (m : Mappings) (zombie_mode : Bool)
    (data : String)
    (hbad : methodToken data ≠ "GET".data ∨
      (versionToken data ≠ "HTTP/1.0".data ∧ versionToken data ≠ "HTTP/1.1".data)) :
    (∃ e, processRequest env m zombie_mode (some data) =
      some ([.wroteResponse (Response.new "HTTP/1.1 400 Bad Request")], .error e)) ∧
    processRequest env m zombie_mode none =
      some ([.wroteResponse (Response.new "HTTP/1.1 400 Bad Request")],
        .error "invalid utf-8 sequence") := by
  refine ⟨?_, rfl⟩
  obtain ⟨e, he⟩ := parse_error_of_bad data hbad
  exact ⟨e, by simp [processRequest, he]⟩

/-- Witness for C8 at the concrete buffer "POST / HTTP/1.1": the method
is wrong, and the transcript is exactly the 400 response with an error
result. -/
theorem C8_bad_request_line_witness :
    methodToken "POST / HTTP/1.1\r\n\r\n" ≠ "GET".data ∧
    (∃ e, processRequest okEnv noMappings false (some "POST / HTTP/1.1\r\n\r\n") =
      some ([.wroteResponse (Response.new "HTTP/1.1 400 Bad Request")], .error e)) :=
  ⟨by decide,
    (C8_bad_request_line okEnv noMappings false "POST / HTTP/1.1\r\n\r\n"
      (Or.inl (by decide))).1⟩

/-- C4: for a parsed request handled in zombie mode whose path is not an
ACME challenge path, the server emits a 301 Moved Permanently whose
Location is "https://", then the Host header value, then the request
path, and terminates successfully; a request whose path is an ACME
challenge path is not redirected and is processed exactly as in normal
(non-zombie) routing. -/
theorem C4_zombie_redirect (env : Env) (m : Mappings) (data : String)
    (request : Request)
    (hp : Request.parse data = some (.ok request)) :
    (isAcmeChallengeUri request.uri = false →
      processRequest env m true (some data) =
        some ([.wroteResponse ((Response.new "HTTP/1.1 301 Moved Permanently").set
            "Location"
            ("https://" ++ ((request.get "Host").getD "") ++ request.uri))],
          .ok ())) ∧
    (isAcmeChallengeUri request.uri = true →
      processRequest env m true (some data) =
        processRequest env m false (some data)) := by
  constructor
  · intro hacme
    simp [processRequest, hp, hacme]
  · intro hacme
    simp [processRequest, hp, hacme]

/-- Witness for C4: a request for /page with Host example.com is answered
with a 301 to https://example.com/page, and a request for an ACME
challenge path is processed as in non-zombie mode. -/
theorem C4_zombie_redirect_witness :
    (isAcmeChallengeUri (Request.mk "/page" [("Host", "example.com")]).uri = false ∧
      processRequest okEnv noMappings true
          (some "GET /page HTTP/1.1\r\nHost: example.com\r\n\r\n") =
        some ([.wroteResponse ((Response.new "HTTP/1.1 301 Moved Permanently").set
            "Location"
            ("https://" ++
              (((Request.mk "/page" [("Host", "example.com")]).get "Host").getD "") ++
              (Request.mk "/page" [("Host", "example.com")]).uri))],
          .ok ())) ∧
    (isAcmeChallengeUri
        (Request.mk "/.well-known/acme-challenge/tok" []).uri = true ∧
      processRequest okEnv noMappings true
          (some "GET /.well-known/acme-challenge/tok HTTP/1.1\r\n\r\n") =
        processRequest okEnv noMappings false
          (some "GET /.well-known/acme-challenge/tok HTTP/1.1\r\n\r\n")) :=
  ⟨⟨by decide,
    (C4_zombie_redirect okEnv noMappings "GET /page HTTP/1.1\r\nHost: example.com\r\n\r\n"
      (Request.mk "/page" [("Host", "example.com")]) (by decide)).1 (by decide)⟩,
   ⟨by decide,
    (C4_zombie_redirect okEnv noMappings
      "GET /.well-known/acme-challenge/tok HTTP/1.1\r\n\r\n"
      (Request.mk "/.well-known/acme-challenge/tok" []) (by decide)).2 (by decide)⟩⟩

/-- C10: header lookup is exact-match and case-sensitive, so a zombie-mode
non-ACME request carrying no header whose key is exactly "Host" (for
example only a lowercase "host" header) still receives a 301, whose
Location is exactly "https://" immediately followed by the request path
(empty host part). -/
theorem C10_redirect_without_host (env : Env) (m : Mappings) (data : String)
    (request : Request)
    (hp : Request.parse data = some (.ok request))
    (hnohost : ∀ p ∈ request.fields, p.1 ≠ "Host")
    (hacme : isAcmeChallengeUri request.uri = false) :
    processRequest env m true (some data) =
      some ([.wroteResponse ((Response.new "HTTP/1.1 301 Moved Permanently").set
          "Location" ("https://" ++ request.uri))], .ok ()) := by
  have hhost : request.get "Host" = none := by
    unfold Request.get mapGet
    rw [List.find?_eq_none.mpr]
    · rfl
    · intro p hmem
      simpa using hnohost p hmem
  simp [processRequest, hp, hacme, hhost]

/-- Witness for C10: a request whose only Host-like header is the
lowercase "host" is redirected with the empty host part. -/
theorem C10_redirect_without_host_witness :
    (∀ p ∈ (Request.mk "/foo" [("host", "example.com")]).fields, p.1 ≠ "Host") ∧
    processRequest okEnv noMappings true
        (some "GET /foo HTTP/1.1\r\nhost: example.com\r\n\r\n") =
      some ([.wroteResponse ((Response.new "HTTP/1.1 301 Moved Permanently").set
          "Location" ("https://" ++ (Request.mk "/foo" [("host", "example.com")]).uri))],
        .ok ()) :=
  ⟨by decide,
    C10_redirect_without_host okEnv noMappings
      "GET /foo HTTP/1.1\r\nhost: example.com\r\n\r\n"
      (Request.mk "/foo" [("host", "example.com")]) (by decide) (by decide) (by decide)⟩

/-- Every encoding the filter lets through is gzip or deflate. -/
theorem parseEncodings_mem {header : Option String} {e : Encoding}
    (h : e ∈ parseEncodings header) : e = Encoding.gzip ∨ e = Encoding.deflate := by
  unfold parseEncodings at h
  obtain ⟨tok, -, htok⟩ := List.mem_filterMap.mp h
  unfold encOfTok at htok
  split at htok
  · exact Or.inr (Option.some.inj htok).symm
  · split at htok
    · exact Or.inl (Option.some.inj htok).symm
    · exact absurd htok (by simp)

/-- The parsed encodings contain gzip exactly when the header lists the
token gzip. -/
theorem gzip_mem_parseEncodings {header : Option String} :
    Encoding.gzip ∈ parseEncodings header ↔ "gzip".data ∈ acceptTokens header := by
  unfold parseEncodings
  rw [List.mem_filterMap]
  constructor
  · rintro ⟨tok, hmem, htok⟩
    unfold encOfTok at htok
    split at htok
    · exact absurd htok (by simp)
    · split at htok
      · rename_i heq
        exact heq ▸ hmem
      · exact absurd htok (by simp)
  · intro hmem
    exact ⟨"gzip".data, hmem, by decide⟩

/-- The parsed encodings contain deflate exactly when the header lists
the token deflate. -/
theorem deflate_mem_parseEncodings {header : Option String} :
    Encoding.deflate ∈ parseEncodings header ↔ "deflate".data ∈ acceptTokens header := by
  unfold parseEncodings
  rw [List.mem_filterMap]
  constructor
  · rintro ⟨tok, hmem, htok⟩
    unfold encOfTok at htok
    split at htok
    · rename_i heq
      exact heq ▸ hmem
    · split at htok <;> exact absurd htok (by simp)
  · intro hmem
    exact ⟨"deflate".data, hmem, by decide⟩

/-- Membership is preserved by the rank insertion. -/
theorem mem_insertByRank {a e : Encoding} {l : List Encoding} :
    a ∈ insertByRank e l ↔ a = e ∨ a ∈ l := by
  induction l with
  | nil => simp [insertByRank]
  | cons x xs ih =>
    unfold insertByRank
    split
    · simp
    · simp only [List.mem_cons, ih]
      tauto

/-- Sorting by rank preserves membership. -/
theorem mem_sortEncodings {a : Encoding} {l : List Encoding} :
    a ∈ sortEncodings l ↔ a ∈ l := by
  induction l with
  | nil => simp [sortEncodings]
  | cons x xs ih => simp [sortEncodings, mem_insertByRank, ih]

/-- If gzip is offered, the sorted preference list starts with gzip. -/
theorem sortEncodings_head_gzip {l : List Encoding} (h : Encoding.gzip ∈ l) :
    (sortEncodings l).head? = some Encoding.gzip := by
  induction l with
  | nil => cases h
  | cons x xs ih =>
    rcases List.mem_cons.mp h with hx | hxs
    · subst hx
      unfold sortEncodings
      cases hs : sortEncodings xs with
      | nil => rfl
      | cons y ys =>
        unfold insertByRank
        have : encodingRank Encoding.gzip ≤ encodingRank y := by
          cases y <;> decide
        rw [if_pos this]
        rfl
    · have htail := ih hxs
      obtain ⟨ys, hys⟩ : ∃ ys, sortEncodings xs = Encoding.gzip :: ys := by
        cases hs : sortEncodings xs with
        | nil => rw [hs] at htail; cases htail
        | cons y ys =>
          rw [hs] at htail
          have hy : y = Encoding.gzip := by simpa using htail
          exact ⟨ys, by rw [hy]⟩
      unfold sortEncodings
      rw [hys]
      unfold insertByRank
      split
      · rename_i hle
        have : x = Encoding.gzip := by cases x <;> simp_all [encodingRank]
        subst this
        rfl
      · rfl

/-- If gzip is not offered but deflate is, the sorted preference list
starts with deflate. -/
theorem sortEncodings_head_deflate {l : List Encoding}
    (hg : Encoding.gzip ∉ l) (hd : Encoding.deflate ∈ l) :
    (sortEncodings l).head? = some Encoding.deflate := by
  induction l with
  | nil => cases hd
  | cons x xs ih =>
    have hgx : x ≠ Encoding.gzip := fun h => hg (h ▸ List.mem_cons_self x xs)
    have hgxs : Encoding.gzip ∉ xs := fun h => hg (List.mem_cons_of_mem x h)
    rcases List.mem_cons.mp hd with hx | hxs
    · subst hx
      unfold sortEncodings
      cases hs : sortEncodings xs with
      | nil => rfl
      | cons y ys =>
        have hy : y ∈ xs := mem_sortEncodings.mp (hs ▸ List.mem_cons_self y ys)
        have hyg : y ≠ Encoding.gzip := fun h => hgxs (h ▸ hy)
        unfold insertByRank
        have : encodingRank Encoding.deflate ≤ encodingRank y := by
          cases y
          · decide
          · exact absurd rfl hyg
          · decide
        rw [if_pos this]
        rfl
    · have htail := ih hgxs hxs
      obtain ⟨ys, hys⟩ : ∃ ys, sortEncodings xs = Encoding.deflate :: ys := by
        cases hs : sortEncodings xs with
        | nil => rw [hs] at htail; cases htail
        | cons y ys =>
          rw [hs] at htail
          have hy : y = Encoding.deflate := by simpa using htail
          exact ⟨ys, by rw [hy]⟩
      unfold sortEncodings
      rw [hys]
      unfold insertByRank
      split
      · rename_i hle
        have : x = Encoding.deflate := by
          cases x
          · simp_all [encodingRank]
          · exact absurd rfl hgx
          · rfl
        subst this
        rfl
      · rfl

/-- C1: the encoding chosen for the response body is determined by the
Accept-Encoding header: gzip whenever the header lists the gzip token
(regardless of order or whitespace), otherwise deflate when the header
lists the deflate token, otherwise identity; unsupported tokens are
ignored, and an absent header (no tokens) selects identity. -/
theorem C1_encoding_negotiation (header : Option String) :
    chosenEncoding header =
      if "gzip".data ∈ acceptTokens header then Encoding.gzip
      else if "deflate".data ∈ acceptTokens header then Encoding.deflate
      else Encoding.uncompressed := by
  by_cases hg : "gzip".data ∈ acceptTokens header
  · have hmem := gzip_mem_parseEncodings.mpr hg
    unfold chosenEncoding
    rw [sortEncodings_head_gzip hmem]
    simp [hg]
  · by_cases hd : "deflate".data ∈ acceptTokens header
    · have hgm : Encoding.gzip ∉ parseEncodings header := fun h =>
        hg (gzip_mem_parseEncodings.mp h)
      have hdm := deflate_mem_parseEncodings.mpr hd
      unfold chosenEncoding
      rw [sortEncodings_head_deflate hgm hdm]
      simp [hg, hd]
    · have hnil : parseEncodings header = [] := by
        rw [List.eq_nil_iff_forall_not_mem]
        intro e he
        rcases parseEncodings_mem he with rfl | rfl
        · exact hg (gzip_mem_parseEncodings.mp he)
        · exact hd (deflate_mem_parseEncodings.mp he)
      unfold chosenEncoding
      rw [hnil]
      simp [hg, hd, sortEncodings]

/-- Counterexample to C2: with a non-caching table routing /a and a
filesystem whose read fails, the connection's transcript contains no
response at all (in particular no 500 Internal Server Error); the
connection terminates with the read error, refuting the claim that a 500
is sent before the connection terminates. -/
theorem C2_counterexample :
    processRequest c2Env c2Mappings false (some "GET /a HTTP/1.1\r\n\r\n") =
      some ([.routeLookup "/a"], .error "read failed") ∧
    sends500 [.routeLookup "/a"] = false := by
  exact ⟨by decide, by decide⟩

/-- C2 (amended): for every request whose path routes to an asset, if
reading or encoding the asset's bytes fails, the connection terminates
with that error *without sending any response*: the transcript holds only
the route lookup, so no 500 (nor anything else) reaches the client. -/
theorem C2_no_500_on_read_failure (env : Env) (m : Mappings)
    (zombie_mode : Bool) (data : String) (request : Request) (route : Mapping)
    (asset : AssetSource) (e : String)
    (hp : Request.parse data = some (.ok request))
    (hnored : (zombie_mode && !(isAcmeChallengeUri request.uri)) = false)
    (hroute : m.get_route request.uri = some route)
    (hasset : m.get_asset route.path = some asset)
    (henc : getEncodingOf env asset
      (chosenEncoding (request.get "Accept-Encoding")) = .error e) :
    processRequest env m zombie_mode (some data) =
      some ([.routeLookup request.uri], .error e) := by
  simp [processRequest, hp, hnored, hroute, hasset, sendData, henc]

/-- Witness for the amended C2 at the concrete failing read. -/
theorem C2_no_500_on_read_failure_witness :
    Request.parse "GET /a HTTP/1.1\r\n\r\n" = some (.ok (Request.mk "/a" [])) ∧
    processRequest c2Env c2Mappings false (some "GET /a HTTP/1.1\r\n\r\n") =
      some ([.routeLookup "/a"], .error "read failed") :=
  ⟨by decide,
    C2_no_500_on_read_failure c2Env c2Mappings false "GET /a HTTP/1.1\r\n\r\n"
      (Request.mk "/a" []) ⟨"./a", none⟩ (.unprocessed "./a") "read failed"
      (by decide) (by decide) (by decide) (by decide) (by decide)⟩

/-- Counterexample to C3: writing a 3-byte buffer where the first write
sends only 1 byte (a short write), the very next event is the next write
attempt, with no yield anywhere in the trace; this refutes the claim that
the computation yields at least once after a short write before the next
write. -/
theorem C3_counterexample :
    writeAsyncTrace 3 [.wrote 1, .wrote 2] 0 =
      ([.attempt 0, .attempt 1], some (.ok ())) ∧
    WriteEvent.yielded ∉ [WriteEvent.attempt 0, WriteEvent.attempt 1] := by
  exact ⟨by decide, by decide⟩

/-- C3 (amended): after a short write the computation immediately
attempts the next write without yielding; it yields only when a write
returns WouldBlock or Interrupted (and it never consults
has_pending_writes, which no caller uses).  Formally: a run whose write
outcomes contain no WouldBlock/Interrupted contains no yield at all. -/
theorem C3_yield_only_on_block (bytesLen : Nat) (outs : List WriteOutcome)
    (cursor : Nat)
    (h : ∀ o ∈ outs, o ≠ WriteOutcome.wouldBlock ∧ o ≠ WriteOutcome.interrupted) :
    WriteEvent.yielded ∉ (writeAsyncTrace bytesLen outs cursor).1 := by
  induction outs generalizing cursor with
  | nil => simp [writeAsyncTrace]
  | cons o rest ih =>
    have ho := h o (List.mem_cons_self o rest)
    have hrest : ∀ o' ∈ rest,
        o' ≠ WriteOutcome.wouldBlock ∧ o' ≠ WriteOutcome.interrupted :=
      fun o' h' => h o' (List.mem_cons_of_mem o h')
    cases o with
    | wouldBlock => exact absurd rfl ho.1
    | interrupted => exact absurd rfl ho.2
    | fatal e => simp [writeAsyncTrace]
    | wrote n =>
      simp only [writeAsyncTrace]
      split
      · simp
      · simpa using ih (cursor + n) hrest

/-- Witness for the amended C3: a block-free outcome list yields a trace
with no yield event. -/
theorem C3_yield_only_on_block_witness :
    (∀ o ∈ [WriteOutcome.wrote 1, WriteOutcome.wrote 2],
      o ≠ WriteOutcome.wouldBlock ∧ o ≠ WriteOutcome.interrupted) ∧
    WriteEvent.yielded ∉ (writeAsyncTrace 3 [.wrote 1, .wrote 2] 0).1 :=
  ⟨by decide, C3_yield_only_on_block 3 [.wrote 1, .wrote 2] 0 (by decide)⟩

/-- C5: a persisted bundle whose remaining validity does not exceed the
renewal threshold (7 days) is rejected as expired and the fresh ACME
issuance path is taken; a bundle whose remaining validity exceeds the
threshold is returned as-is and the ACME service is not contacted. -/
theorem C5_certificate_renewal (env : CertEnv) (cert : CertBundle)
    (hload : env.readParse = .ok cert) :
    (cert.days_till_expiry ≤ RENEWAL_PERIOD_DAYS →
      acquire_certificate env = (env.requestNew, true)) ∧
    (RENEWAL_PERIOD_DAYS < cert.days_till_expiry →
      acquire_certificate env = (.ok cert, false)) := by
  constructor
  · intro hexp
    simp [acquire_certificate, load_certificate_from, hload, hexp]
  · intro hfresh
    simp [acquire_certificate, load_certificate_from, hload, not_le.mpr hfresh]

/-- Witness for C5 at a bundle with 5 days left (renewed) and one with 90
days left (reused without contacting ACME). -/
theorem C5_certificate_renewal_witness :
    ((CertBundle.mk 1 5).days_till_expiry ≤ RENEWAL_PERIOD_DAYS ∧
      acquire_certificate c5EnvExpired = (c5EnvExpired.requestNew, true)) ∧
    (RENEWAL_PERIOD_DAYS < (CertBundle.mk 3 90).days_till_expiry ∧
      acquire_certificate c5EnvFresh = (.ok ⟨3, 90⟩, false)) :=
  ⟨⟨by decide, (C5_certificate_renewal c5EnvExpired ⟨1, 5⟩ rfl).1 (by decide)⟩,
   ⟨by decide, (C5_certificate_renewal c5EnvFresh ⟨3, 90⟩ rfl).2 (by decide)⟩⟩

set_option maxRecDepth 4000 in
/-- Counterexample to C6: serving the cached /x asset produces a 200
response carrying two header fields (Content-Encoding and Content-Type).
Its serialized header bytes depend on the iteration order of the field
HashMap, which is an arbitrary permutation of the fields (per-instance
random hash seed): two valid orders of the *same* response produce
different bytes, refuting guaranteed byte-identity across two serves. -/
theorem C6_counterexample :
    processRequest okEnv c6Mappings false
        (some "GET /x HTTP/1.1\r\nAccept-Encoding: gzip\r\n\r\n") =
      some ([.routeLookup "/x", .wroteResponse c6Response, .wroteBody [7, 8]],
        .ok ()) ∧
    c6Response.fields.reverse.Perm c6Response.fields ∧
    headerStringWith c6Response.status_line c6Response.fields ≠
      headerStringWith c6Response.status_line c6Response.fields.reverse := by
  exact ⟨by decide, by decide, by decide⟩

/-- C6 (amended): two serves of the same request against the same table
and cache agree on the response structure (status line, header-field set,
body bytes); the serialized bytes are guaranteed byte-identical whenever
the response carries at most one header field, the most the
header-iteration order can be pinned down given that the field order of a
response with two or more fields comes from a per-instance randomized
HashMap. -/
theorem C6_headers_deterministic (status : String)
    (fields ord1 ord2 : List (String × String))
    (h1 : ord1.Perm fields) (h2 : ord2.Perm fields) (hlen : fields.length ≤ 1) :
    headerStringWith status ord1 = headerStringWith status ord2 := by
  have e1 : ord1 = fields := by
    cases fields with
    | nil => exact h1.eq_nil
    | cons a t =>
      cases t with
      | nil => exact List.perm_singleton.mp h1
      | cons b t2 => simp at hlen
  have e2 : ord2 = fields := by
    cases fields with
    | nil => exact h2.eq_nil
    | cons a t =>
      cases t with
      | nil => exact List.perm_singleton.mp h2
      | cons b t2 => simp at hlen
  rw [e1, e2]

/-- Witness for the amended C6 on a one-field response. -/
theorem C6_headers_deterministic_witness :
    ([("Content-Encoding", "gzip")] : List (String × String)).Perm
      [("Content-Encoding", "gzip")] ∧
    headerStringWith "HTTP/1.1 200 OK" [("Content-Encoding", "gzip")] =
      headerStringWith "HTTP/1.1 200 OK" [("Content-Encoding", "gzip")] :=
  ⟨by decide,
    C6_headers_deterministic "HTTP/1.1 200 OK" [("Content-Encoding", "gzip")]
      [("Content-Encoding", "gzip")] [("Content-Encoding", "gzip")]
      (by decide) (by decide) (by decide)⟩

set_option maxRecDepth 4000 in
/-- Counterexample to C7: a worker owning 127 connections that drains a
channel holding 2 pending assignments ends up owning 129 connections,
exceeding the claimed ceiling of 128; the ceiling only gates whether a
drain starts, not how much it takes. -/
theorem C7_counterexample :
    (drainPending (List.replicate 127 true) (List.replicate 2 true)).length = 129 ∧
    MAX_CONCURRENT_CONNECTIONS_PER_THREAD < 129 := by
  exact ⟨by decide, by decide⟩

/-- C7 (amended): the ceiling of 128 is checked only before a drain
begins, and a single drain takes every assignment then pending; with the
inbound channel bounded at 128, one worker pass keeps the owned count at
most 127 + 128 = 255.  (During a drain the acceptor may refill the
channel, so 255 holds for a drain that takes at most one channelful.) -/
theorem C7_bounded_drain (owned pending : List Bool)
    (hpend : pending.length ≤ MAX_PENDING_CONNECTIONS_PER_THREAD)
    (howned : owned.length ≤
      MAX_CONCURRENT_CONNECTIONS_PER_THREAD - 1 + MAX_PENDING_CONNECTIONS_PER_THREAD) :
    (workerPass owned pending).length ≤
      MAX_CONCURRENT_CONNECTIONS_PER_THREAD - 1 + MAX_PENDING_CONNECTIONS_PER_THREAD := by
  unfold workerPass
  refine le_trans (List.length_filter_le _ _) ?_
  unfold drainPending
  split
  · rename_i hlt
    rw [List.length_append]
    unfold MAX_CONCURRENT_CONNECTIONS_PER_THREAD
      MAX_PENDING_CONNECTIONS_PER_THREAD at *
    omega
  · exact howned

set_option maxRecDepth 4000 in
/-- Witness for the amended C7 at a full channel and a worker at the
gate. -/
theorem C7_bounded_drain_witness :
    (List.replicate 128 true).length ≤ MAX_PENDING_CONNECTIONS_PER_THREAD ∧
    (List.replicate 127 true).length ≤
      MAX_CONCURRENT_CONNECTIONS_PER_THREAD - 1 + MAX_PENDING_CONNECTIONS_PER_THREAD ∧
    (workerPass (List.replicate 127 true) (List.replicate 128 true)).length ≤
      MAX_CONCURRENT_CONNECTIONS_PER_THREAD - 1 + MAX_PENDING_CONNECTIONS_PER_THREAD :=
  ⟨by decide, by decide,
    C7_bounded_drain (List.replicate 127 true) (List.replicate 128 true)
      (by decide) (by decide)⟩

end SpiderButter
